import Mathlib

/-!
Verification of the conda-package upload/check script
(recipe/upload_or_check_non_existence.py).

Python strings are modelled as lists of characters (`Str`), the process
environment and the remote API as an explicit `Env` record of oracles, and
side effects (prints, subprocess upload invocations, temp-directory
creation and removal, sleeps) as an explicit `Event` trace.  Python
exceptions are modelled with `Except Exc`.
-/

set_option maxRecDepth 4000

abbrev Str := List Char

/-- Shorthand turning a Lean string literal into the character-list model. -/
def ls (s : String) : Str := s.data

/-- Python exceptions that the script can raise or observe. -/
inductive Exc where
  | runtimeError (msg : Str)
  | valueError
  | notFound
  | apiError (msg : Str)
  | calledProcessError (code : Nat)
  | timeoutError
  deriving DecidableEq

instance {ε α : Type} [DecidableEq ε] [DecidableEq α] : DecidableEq (Except ε α) := fun x y =>
  match x, y with
  | .ok a, .ok b =>
    if h : a = b then .isTrue (by rw [h]) else .isFalse (by simp [h])
  | .error a, .error b =>
    if h : a = b then .isTrue (by rw [h]) else .isFalse (by simp [h])
  | .ok _, .error _ => .isFalse (by simp)
  | .error _, .ok _ => .isFalse (by simp)

/-- Python str.endswith for the list model. -/
def endsWithL (s suf : Str) : Bool := s.drop (s.length - suf.length) == suf

/-- Python str.startswith for the list model. -/
def startsWithL (s pre : Str) : Bool := s.take pre.length == pre

/-- Python s[:-n] (for n ≤ len s): drop the last n characters. -/
def pyDropEnd (s : Str) (n : Nat) : Str := s.take (s.length - n)

/-- Python s.split(c) for a one-character separator: split on every
occurrence of c; the empty string splits to one empty field. -/
def splitOnC (c : Char) : Str → List Str
  | [] => [[]]
  | x :: xs =>
    let r := splitOnC c xs
    if x = c then [] :: r
    else
      match r with
      | [] => [[x]]
      | h :: t => (x :: h) :: t

/-- Python s.rsplit(c, 1): split at the rightmost occurrence of c,
returning none when c does not occur (in which case the unpacking
`a, b = s.rsplit(c, 1)` raises ValueError). -/
def rsplit1 (c : Char) : Str → Option (Str × Str)
  | [] => none
  | x :: xs =>
    match rsplit1 c xs with
    | some (l, r) => some (x :: l, r)
    | none => if x = c then some ([], xs) else none

/-- split_pkg from the script: requires the ".tar.bz2" suffix (else
RuntimeError), drops it, splits the remainder into exactly two fields at
"/" (else ValueError from tuple unpacking), then peels build and version
from the right at "-" (else ValueError). -/
def split_pkg (pkg : Str) : Except Exc (Str × Str × Str × Str) :=
  if endsWithL pkg (ls ".tar.bz2") = false then
    .error (.runtimeError (ls "Can only process packages that end in .tar.bz2"))
  else
    match splitOnC '/' (pyDropEnd pkg 8) with
    | [plat, pkg_name] =>
      match rsplit1 '-' pkg_name with
      | some (name_ver, build) =>
        match rsplit1 '-' name_ver with
        | some (name, ver) => .ok (plat, name, ver, build)
        | none => .error .valueError
      | none => .error .valueError
    | _ => .error .valueError

/-- Strip trailing occurrences of a character (Python str.rstrip for a
one-character argument). -/
def stripTrailing (c : Char) (s : Str) : Str :=
  ((s.reverse).dropWhile (fun x => x = c)).reverse

/-- posixpath os.path.split: split at the rightmost "/" into (head, tail);
head keeps nothing after the last slash and has trailing slashes stripped
unless it consists of slashes only; with no slash the head is empty. -/
def osPathSplit (p : Str) : Str × Str :=
  match rsplit1 '/' p with
  | none => ([], p)
  | some (before, after) =>
    let head := before ++ ['/']
    (if head.all (fun x => x = '/') then head else stripTrailing '/' head, after)

/-- Observable side effects of one run, in program order.  attemptStart is
instrumentation marking each invocation of upload_or_check by the retry
wrapper; it changes no behaviour. -/
inductive Event where
  | print (msg : Str)
  | uploadCall (token_fn path owner channel : Str)
  | tempDirCreated
  | tempDirRemoved
  | sleep (n : Nat)
  | attemptStart (i : Nat)
  deriving DecidableEq

/-- A remote dictionary (dist_info); Python bool(dict) is nonemptiness. -/
abbrev Dict := List (Str × Str)

/-- The binstar client returned by get_server_api: its stored token and its
distribution lookup, which either returns dist_info, raises NotFound, or
raises some other exception. -/
structure Cli where
  token : Str
  distribution : Str → Str → Str → Str → Except Exc Dict

/-- The ambient world of one batch attempt: environment variable, the two
directory listings, the client factory, the temp directory name that
mkdtemp would return, and the outcome of each anaconda upload call. -/
structure Env where
  binstar_token : Option Str
  noarch_listing : List Str
  subdir : Str
  subdir_listing : List Str
  get_server_api : Option Str → Cli
  temp_dir : Str
  upload_result : Str → Str → Str → Str → Except Exc Unit

/-- os.path.join for a relative second component. -/
def pathJoin (a b : Str) : Str := a ++ '/' :: b

/-- Python truthiness of an optional string: None and "" are falsy. -/
def pyTruthy : Option Str → Bool
  | none => false
  | some s => !s.isEmpty

/-- The token filtering at the top of upload_or_check: a truthy token that
starts with the marker dollar-paren is replaced by None. -/
def filterToken : Option Str → Option Str
  | none => none
  | some s => if !s.isEmpty && startsWithL s (ls "$(") then none else some s

/-- built_distribution_already_exists: look the distribution up under
platform/basename; NotFound means absence (false); any other exception
propagates. -/
def built_distribution_already_exists (cli : Cli) (name version fname owner : Str) :
    Except Exc Bool :=
  let folder := (osPathSplit fname).1
  let basename := (osPathSplit fname).2
  let platform := (osPathSplit folder).2
  let distro_name := platform ++ '/' :: basename
  match cli.distribution owner name version distro_name with
  | .ok dist_info => .ok (!dist_info.isEmpty)
  | .error .notFound => .ok false
  | .error e => .error e

/-- Left-to-right effectful map over Except, aborting at the first error,
as a Python list comprehension does. -/
def mapE {α β : Type} (f : α → Except Exc β) : List α → Except Exc (List β)
  | [] => .ok []
  | x :: xs =>
    match f x with
    | .error e => .error e
    | .ok y =>
      match mapE f xs with
      | .error e => .error e
      | .ok r => .ok (y :: r)

/-- Left-to-right effectful filter over Except, aborting at the first
error, as a Python conditional list comprehension does. -/
def filterE {α : Type} (p : α → Except Exc Bool) : List α → Except Exc (List α)
  | [] => .ok []
  | x :: xs =>
    match p x with
    | .error e => .error e
    | .ok b =>
      match filterE p xs with
      | .error e => .error e
      | .ok r => .ok (if b then x :: r else r)

/-- The list of candidate paths: noarch listing then platform-subdir
listing, each joined under its directory. -/
def the_paths (env : Env) : List Str :=
  env.noarch_listing.map (fun p => pathJoin (ls "noarch") p)
    ++ env.subdir_listing.map (fun p => pathJoin env.subdir p)

/-- built_distributions: filter the paths to the ".tar.bz2" suffix, then
parse each one into (name, version, path); a parse failure raises. -/
def built_distributions (env : Env) : Except Exc (List (Str × Str × Str)) :=
  mapE
    (fun p =>
      match split_pkg p with
      | .error e => .error e
      | .ok q => .ok (q.2.1, q.2.2.1, p))
    ((the_paths env).filter (fun p => endsWithL p (ls ".tar.bz2")))

/-- existing_distributions: the paths whose distribution already exists on
the owner channel. -/
def existing_distributions (env : Env) (cli : Cli) (owner : Str) :
    Except Exc (List Str) :=
  match built_distributions env with
  | .error e => .error e
  | .ok bd =>
    match filterE
        (fun t => built_distribution_already_exists cli t.1 t.2.1 t.2.2 owner) bd with
    | .error e => .error e
    | .ok l => .ok (l.map (fun t => t.2.2))

/-- The comprehension condition of the new list: negation of the existence
check, with its exception propagating. -/
def newPred (cli : Cli) (owner : Str) (t : Str × Str × Str) : Except Exc Bool :=
  match built_distribution_already_exists cli t.1 t.2.1 t.2.2 owner with
  | .error e => .error e
  | .ok b => .ok !b

/-- new_distributions: the paths whose distribution does not yet exist. -/
def new_distributions (env : Env) (cli : Cli) (owner : Str) :
    Except Exc (List Str) :=
  match built_distributions env with
  | .error e => .error e
  | .ok bd =>
    match filterE (newPred cli owner) bd with
    | .error e => .error e
    | .ok l => .ok (l.map (fun t => t.2.2))

def printExisting (d owner : Str) : Event :=
  .print (ls "Distribution " ++ d ++ ls " already exists for " ++ owner)

def printSkip (p owner : Str) : Event :=
  .print (ls "Distribution " ++ p ++ ls " is new for " ++ owner
    ++ ls ", but no upload is taking place because the BINSTAR_TOKEN is missing.")

def printUploaded (p : Str) : Event := .print (ls "Uploaded " ++ p)

/-- The upload loop inside the with-block: invoke the anaconda client on
each new path in order, printing after each success; the first failure
raises out of the loop. -/
def uploadLoop (env : Env) (token_fn owner channel : Str) :
    List Str → List Event × Except Exc Unit
  | [] => ([], .ok ())
  | p :: ps =>
    match env.upload_result token_fn p owner channel with
    | .error e => ([.uploadCall token_fn p owner channel], .error e)
    | .ok _ =>
      let r := uploadLoop env token_fn owner channel ps
      (.uploadCall token_fn p owner channel :: printUploaded p :: r.1, r.2)

/-- upload_or_check: one batch attempt.  Reads and filters the token,
builds the client, enumerates and classifies artifacts (the remote lookup
runs once for the existing list and once for the new list), prints a line
per existing artifact, then either uploads every new artifact inside the
lifetime of a temporary token file, or prints a skip line per new artifact
and returns false.  get_temp_token has no try/finally around its yield, so
the temp directory removal runs only when the upload loop completed
without an exception. -/
def upload_or_check (env : Env) (recipe_dir owner channel : Str)
    (variant : List Str) : List Event × Except Exc Bool :=
  let token := filterToken env.binstar_token
  let cli := env.get_server_api token
  match existing_distributions env cli owner with
  | .error e => ([], .error e)
  | .ok existing =>
    let evs1 := existing.map (fun d => printExisting d owner)
    match new_distributions env cli owner with
    | .error e => (evs1, .error e)
    | .ok news =>
      if pyTruthy token then
        let token_fn := pathJoin env.temp_dir (ls "binstar.token")
        let r := uploadLoop env token_fn owner channel news
        match r.2 with
        | .ok _ => (evs1 ++ Event.tempDirCreated :: r.1 ++ [Event.tempDirRemoved], .ok true)
        | .error e => (evs1 ++ Event.tempDirCreated :: r.1, .error e)
      else
        (evs1 ++ news.map (fun p => printSkip p owner), .ok false)

/-- Rendering of an exception inside the retry failure message. -/
def excName : Exc → Str
  | .runtimeError m => ls "RuntimeError: " ++ m
  | .valueError => ls "ValueError"
  | .notFound => ls "NotFound"
  | .apiError m => ls "BinstarError: " ++ m
  | .calledProcessError c => ls "CalledProcessError " ++ ls (Nat.repr c)
  | .timeoutError => ls "TimeoutError"

def retryMsg (e : Exc) (t : Nat) : Str :=
  ls "Failed to upload due to " ++ excName e
    ++ ls ".  Trying again in " ++ ls (Nat.repr t) ++ ls " seconds"

/-- The body of the retry loop over a list of attempt indices: run the
attempt; return its result on success; on an exception print the failure
line, sleep the square of the index, and continue; raise TimeoutError when
the indices are exhausted. -/
def retryAux (op : Nat → List Event × Except Exc Bool) :
    List Nat → List Event × Except Exc Bool
  | [] => ([], .error .timeoutError)
  | i :: rest =>
    let r := op i
    match r.2 with
    | .ok b => (Event.attemptStart i :: r.1, .ok b)
    | .error e =>
      let r2 := retryAux op rest
      (Event.attemptStart i :: r.1
        ++ Event.print (retryMsg e (i ^ 2)) :: Event.sleep (i ^ 2) :: r2.1, r2.2)

/-- retry_upload_or_check: run upload_or_check for attempt indices
1 through 9 (range(1, 10)); the world may differ between attempts, so each
attempt index gets its own Env. -/
def retry_upload_or_check (envs : Nat → Env) (recipe_dir owner channel : Str)
    (variant : List Str) : List Event × Except Exc Bool :=
  retryAux (fun i => upload_or_check (envs i) recipe_dir owner channel variant)
    (List.range' 1 9)

/-- The attempt indices recorded in a trace. -/
def attemptStarts (tr : List Event) : List Nat :=
  tr.filterMap (fun e => match e with | .attemptStart i => some i | _ => none)

/-- The sleep durations recorded in a trace. -/
def sleeps (tr : List Event) : List Nat :=
  tr.filterMap (fun e => match e with | .sleep n => some n | _ => none)

/-- Events that upload_or_check itself can emit (no sleeps, no attempt
markers). -/
def innerEvent : Event → Bool
  | .print _ => true
  | .uploadCall _ _ _ _ => true
  | .tempDirCreated => true
  | .tempDirRemoved => true
  | .sleep _ => false
  | .attemptStart _ => false

/-- Replace the environment token, leaving the rest of the world fixed. -/
def withToken (env : Env) (t : Option Str) : Env := { env with binstar_token := t }

/-- A client whose every distribution lookup raises NotFound. -/
def cliNF : Cli := ⟨ls "tok", fun _ _ _ _ => .error .notFound⟩

/-- A client whose every distribution lookup raises a non-NotFound API
error. -/
def cliErr : Cli := ⟨ls "tok", fun _ _ _ _ => .error (.apiError (ls "boom"))⟩

/-- Concrete world: token present, no artifacts at all. -/
def envTok : Env :=
  { binstar_token := some (ls "abc"), noarch_listing := [], subdir := ls "linux-64",
    subdir_listing := [], get_server_api := fun _ => cliNF, temp_dir := ls "/tmp/t1",
    upload_result := fun _ _ _ _ => .ok () }

/-- Concrete world: no token, one well-formed new artifact. -/
def envNoTok : Env :=
  { binstar_token := none, noarch_listing := [ls "a-1-0.tar.bz2"], subdir := ls "linux-64",
    subdir_listing := [], get_server_api := fun _ => cliNF, temp_dir := ls "/tmp/t2",
    upload_result := fun _ _ _ _ => .ok () }

/-- Concrete world: token present, one new artifact, upload succeeds. -/
def envUpOk : Env :=
  { binstar_token := some (ls "tok"), noarch_listing := [ls "a-1-0.tar.bz2"],
    subdir := ls "linux-64", subdir_listing := [], get_server_api := fun _ => cliNF,
    temp_dir := ls "/tmp/t3", upload_result := fun _ _ _ _ => .ok () }

/-- Concrete world: token present, one new artifact, the anaconda upload
exits nonzero. -/
def envUpFail : Env :=
  { binstar_token := some (ls "tok"), noarch_listing := [ls "a-1-0.tar.bz2"],
    subdir := ls "linux-64", subdir_listing := [], get_server_api := fun _ => cliNF,
    temp_dir := ls "/tmp/t4", upload_result := fun _ _ _ _ => .error (.calledProcessError 1) }

/-- Concrete world: the noarch listing holds a malformed artifact name
(no hyphen in the basename), so split_pkg raises ValueError. -/
def envBad : Env :=
  { binstar_token := none, noarch_listing := [ls "pkg.tar.bz2"], subdir := ls "linux-64",
    subdir_listing := [], get_server_api := fun _ => cliNF, temp_dir := ls "/tmp/t5",
    upload_result := fun _ _ _ _ => .ok () }

lemma rsplit1_eq_none {c : Char} {b : Str} (h : c ∉ b) : rsplit1 c b = none := by
  induction b with
  | nil => rfl
  | cons x xs ih =>
    simp only [List.mem_cons, not_or] at h
    simp [rsplit1, ih h.2, h.1, Ne.symm h.1]

lemma rsplit1_append {c : Char} (a : Str) {b : Str} (h : c ∉ b) :
    rsplit1 c (a ++ c :: b) = some (a, b) := by
  induction a with
  | nil => simp [rsplit1, rsplit1_eq_none h]
  | cons x xs ih => simp [rsplit1, ih]

lemma splitOnC_of_not_mem {c : Char} {a : Str} (h : c ∉ a) : splitOnC c a = [a] := by
  induction a with
  | nil => rfl
  | cons x xs ih =>
    simp only [List.mem_cons, not_or] at h
    simp [splitOnC, ih h.2, Ne.symm h.1, h.1]

lemma splitOnC_append {c : Char} {a : Str} (b : Str) (h : c ∉ a) :
    splitOnC c (a ++ c :: b) = a :: splitOnC c b := by
  induction a with
  | nil =>
    cases hb : splitOnC c b with
    | nil => simp [splitOnC, hb]
    | cons y ys => simp [splitOnC, hb]
  | cons x xs ih =>
    simp only [List.mem_cons, not_or] at h
    simp only [List.cons_append, splitOnC, List.append_eq]
    rw [ih h.2]
    simp [Ne.symm h.1, h.1]

lemma endsWithL_append (a s : Str) : endsWithL (a ++ s) s = true := by
  simp [endsWithL, List.length_append, Nat.add_sub_cancel, List.drop_left]

lemma pyDropEnd_append (a s : Str) : pyDropEnd (a ++ s) s.length = a := by
  simp [pyDropEnd, List.length_append, Nat.add_sub_cancel, List.take_left]

/-- The positive half of the parser spec: a well-formed path parses to its
four components. -/
lemma split_pkg_ok (plat name ver build : Str)
    (hp : '/' ∉ plat) (hn : '/' ∉ name)
    (hv1 : '-' ∉ ver) (hv2 : '/' ∉ ver)
    (hb1 : '-' ∉ build) (hb2 : '/' ∉ build) :
    split_pkg (plat ++ '/' :: (name ++ '-' :: (ver ++ '-' :: (build ++ ls ".tar.bz2"))))
      = .ok (plat, name, ver, build) := by
  have hsplit : plat ++ '/' :: (name ++ '-' :: (ver ++ '-' :: (build ++ ls ".tar.bz2")))
      = (plat ++ '/' :: (name ++ '-' :: (ver ++ '-' :: build))) ++ ls ".tar.bz2" := by
    simp [List.append_assoc]
  have hB : '/' ∉ name ++ '-' :: (ver ++ '-' :: build) := by
    simp only [List.mem_append, List.mem_cons, not_or]
    exact ⟨hn, by decide, hv2, by decide, hb2⟩
  have hassoc : name ++ '-' :: (ver ++ '-' :: build)
      = (name ++ '-' :: ver) ++ '-' :: build := by
    simp [List.append_assoc]
  have e1 : endsWithL (plat ++ '/' :: (name ++ '-' :: (ver ++ '-' :: (build ++ ls ".tar.bz2"))))
      (ls ".tar.bz2") = true := by
    rw [hsplit]
    exact endsWithL_append _ _
  have e2 : pyDropEnd (plat ++ '/' :: (name ++ '-' :: (ver ++ '-' :: (build ++ ls ".tar.bz2")))) 8
      = plat ++ '/' :: (name ++ '-' :: (ver ++ '-' :: build)) := by
    rw [hsplit, show (8 : Nat) = (ls ".tar.bz2").length from rfl]
    exact pyDropEnd_append _ _
  have e3 : splitOnC '/' (plat ++ '/' :: (name ++ '-' :: (ver ++ '-' :: build)))
      = [plat, name ++ '-' :: (ver ++ '-' :: build)] := by
    rw [splitOnC_append _ hp, splitOnC_of_not_mem hB]
  have e4 : rsplit1 '-' (name ++ '-' :: (ver ++ '-' :: build))
      = some (name ++ '-' :: ver, build) := by
    rw [hassoc]
    exact rsplit1_append _ hb1
  have e5 : rsplit1 '-' (name ++ '-' :: ver) = some (name, ver) := rsplit1_append _ hv1
  simp only [split_pkg, e1, e2, e3, e4, e5, Bool.true_eq_false, if_false]

/-- The negative half of the parser spec: without the suffix, RuntimeError. -/
lemma split_pkg_badSuffix {pkg : Str} (h : endsWithL pkg (ls ".tar.bz2") = false) :
    split_pkg pkg
      = .error (.runtimeError (ls "Can only process packages that end in .tar.bz2")) := by
  simp [split_pkg, h]

/-- C4: a path of the form platform/name-version-build.tar.bz2 (one slash,
no hyphen in version or build) parses to exactly that 4-tuple, with
rightmost-hyphen splitting so the name may contain hyphens; a path not
ending in .tar.bz2 raises the parse error instead. -/
theorem claim_C4 (plat name ver build pkg : Str) :
    ('/' ∉ plat → '/' ∉ name → '-' ∉ ver → '/' ∉ ver → '-' ∉ build → '/' ∉ build →
      split_pkg (plat ++ '/' :: (name ++ '-' :: (ver ++ '-' :: (build ++ ls ".tar.bz2"))))
        = .ok (plat, name, ver, build))
    ∧ (endsWithL pkg (ls ".tar.bz2") = false →
      split_pkg pkg
        = .error (.runtimeError (ls "Can only process packages that end in .tar.bz2"))) :=
  ⟨fun h1 h2 h3 h4 h5 h6 => split_pkg_ok plat name ver build h1 h2 h3 h4 h5 h6,
   fun h => split_pkg_badSuffix h⟩

/-- C4 witness: a concrete hyphenated package name parses, and a concrete
path without the suffix raises. -/
theorem claim_C4_witness :
    split_pkg (ls "linux-64" ++ '/' :: (ls "cf-autotick-bot-test-package"
        ++ '-' :: (ls "0.9" ++ '-' :: (ls "py37_0" ++ ls ".tar.bz2"))))
      = .ok (ls "linux-64", ls "cf-autotick-bot-test-package", ls "0.9", ls "py37_0")
    ∧ split_pkg (ls "foo.txt")
      = .error (.runtimeError (ls "Can only process packages that end in .tar.bz2")) :=
  ⟨(claim_C4 (ls "linux-64") (ls "cf-autotick-bot-test-package") (ls "0.9") (ls "py37_0")
      (ls "foo.txt")).1 (by decide) (by decide) (by decide) (by decide) (by decide) (by decide),
   (claim_C4 (ls "linux-64") (ls "cf-autotick-bot-test-package") (ls "0.9") (ls "py37_0")
      (ls "foo.txt")).2 (by decide)⟩

/-- C5: a NotFound answer from the distribution lookup makes the existence
checker return false without raising, and any other exception from the
lookup propagates out of the checker unchanged. -/
theorem claim_C5 (cli : Cli) (name version fname owner : Str) :
    (cli.distribution owner name version
        ((osPathSplit (osPathSplit fname).1).2 ++ '/' :: (osPathSplit fname).2)
        = .error .notFound →
      built_distribution_already_exists cli name version fname owner = .ok false)
    ∧ (∀ e, e ≠ Exc.notFound →
      cli.distribution owner name version
        ((osPathSplit (osPathSplit fname).1).2 ++ '/' :: (osPathSplit fname).2)
        = .error e →
      built_distribution_already_exists cli name version fname owner = .error e) := by
  constructor
  · intro h
    simp [built_distribution_already_exists, h]
  · intro e he h
    cases e with
    | notFound => exact absurd rfl he
    | runtimeError m => simp [built_distribution_already_exists, h]
    | valueError => simp [built_distribution_already_exists, h]
    | apiError m => simp [built_distribution_already_exists, h]
    | calledProcessError c => simp [built_distribution_already_exists, h]
    | timeoutError => simp [built_distribution_already_exists, h]

/-- C5 witness: a concrete NotFound lookup yields false; a concrete API
error propagates. -/
theorem claim_C5_witness :
    built_distribution_already_exists cliNF (ls "a") (ls "1")
        (ls "noarch/a-1-0.tar.bz2") (ls "own") = .ok false
    ∧ built_distribution_already_exists cliErr (ls "a") (ls "1")
        (ls "noarch/a-1-0.tar.bz2") (ls "own") = .error (.apiError (ls "boom")) :=
  ⟨(claim_C5 cliNF (ls "a") (ls "1") (ls "noarch/a-1-0.tar.bz2") (ls "own")).1 rfl,
   (claim_C5 cliErr (ls "a") (ls "1") (ls "noarch/a-1-0.tar.bz2") (ls "own")).2
      (.apiError (ls "boom")) (by decide) rfl⟩

/-- C9: the variant option has no effect: two runs differing only in the
variant list produce identical traces and results, for one batch attempt
and for the retry wrapper alike. -/
theorem claim_C9 (env : Env) (envs : Nat → Env) (recipe_dir owner channel : Str)
    (v1 v2 : List Str) :
    upload_or_check env recipe_dir owner channel v1
      = upload_or_check env recipe_dir owner channel v2
    ∧ retry_upload_or_check envs recipe_dir owner channel v1
      = retry_upload_or_check envs recipe_dir owner channel v2 :=
  ⟨rfl, rfl⟩

/-- C10: whenever the batch returns without an exception, its boolean
result equals the truthiness of the token after placeholder filtering,
independently of how many artifacts were new or uploaded. -/
theorem claim_C10 (env : Env) (recipe_dir owner channel : Str) (variant : List Str)
    (b : Bool)
    (h : (upload_or_check env recipe_dir owner channel variant).2 = .ok b) :
    b = pyTruthy (filterToken env.binstar_token) := by
  simp only [upload_or_check] at h
  split at h
  · simp at h
  · split at h
    · simp at h
    · split at h
      · split at h <;> simp_all
      · simp_all

/-- C10 witness: with a token and no artifacts the batch returns true, and
that matches the token truthiness. -/
theorem claim_C10_witness :
    (upload_or_check envTok (ls "r") (ls "own") (ls "main") []).2 = .ok true
    ∧ true = pyTruthy (filterToken envTok.binstar_token) :=
  ⟨by decide, claim_C10 envTok (ls "r") (ls "own") (ls "main") [] true (by decide)⟩

lemma filterToken_dollar {t : Str} (h : startsWithL t (ls "$(") = true) :
    filterToken (some t) = none := by
  cases t with
  | nil => exact absurd h (by decide)
  | cons x xs => simp [filterToken, h]

lemma uploadLoop_withToken (env : Env) (t : Option Str) (tf ow ch : Str)
    (l : List Str) :
    uploadLoop (withToken env t) tf ow ch l = uploadLoop env tf ow ch l := by
  induction l with
  | nil => rfl
  | cons p ps ih =>
    simp only [uploadLoop]
    rw [show (withToken env t).upload_result = env.upload_result from rfl, ih]

lemma upload_or_check_token_swap (env : Env) (t1 t2 : Option Str)
    (h : filterToken t1 = filterToken t2) (recipe_dir owner channel : Str)
    (variant : List Str) :
    upload_or_check (withToken env t1) recipe_dir owner channel variant
      = upload_or_check (withToken env t2) recipe_dir owner channel variant := by
  unfold upload_or_check
  rw [show (withToken env t1).binstar_token = t1 from rfl,
    show (withToken env t2).binstar_token = t2 from rfl, h]
  simp only [uploadLoop_withToken,
    show ∀ t cli ow, existing_distributions (withToken env t) cli ow
      = existing_distributions env cli ow from fun _ _ _ => rfl,
    show ∀ t cli ow, new_distributions (withToken env t) cli ow
      = new_distributions env cli ow from fun _ _ _ => rfl,
    show ∀ t, (withToken env t).get_server_api = env.get_server_api from fun _ => rfl,
    show ∀ t, (withToken env t).temp_dir = env.temp_dir from fun _ => rfl]

/-- C7: a token value beginning with the dollar-paren placeholder marker
makes the run behave exactly as a run with no token at all, both for one
batch attempt and under the retry wrapper. -/
theorem claim_C7 (env : Env) (envs : Nat → Env) (t : Str)
    (recipe_dir owner channel : Str) (variant : List Str)
    (h : startsWithL t (ls "$(") = true) :
    upload_or_check (withToken env (some t)) recipe_dir owner channel variant
      = upload_or_check (withToken env none) recipe_dir owner channel variant
    ∧ retry_upload_or_check (fun i => withToken (envs i) (some t))
        recipe_dir owner channel variant
      = retry_upload_or_check (fun i => withToken (envs i) none)
        recipe_dir owner channel variant := by
  have hft : filterToken (some t) = filterToken none := by
    rw [filterToken_dollar h]
    rfl
  constructor
  · exact upload_or_check_token_swap env _ _ hft recipe_dir owner channel variant
  · unfold retry_upload_or_check
    congr 1
    funext i
    exact upload_or_check_token_swap (envs i) _ _ hft recipe_dir owner channel variant

/-- C7 witness: a concrete placeholder token gives the same run as no
token. -/
theorem claim_C7_witness :
    startsWithL (ls "$(secret-name)") (ls "$(") = true
    ∧ upload_or_check (withToken envTok (some (ls "$(secret-name)")))
        (ls "r") (ls "own") (ls "main") []
      = upload_or_check (withToken envTok none) (ls "r") (ls "own") (ls "main") [] :=
  ⟨by decide,
   (claim_C7 envTok (fun _ => envTok) (ls "$(secret-name)")
      (ls "r") (ls "own") (ls "main") [] (by decide)).1⟩

/-- C6: with the credential absent (or empty), no upload invocation occurs
on any path; and when classification completes, the trace is exactly one
line per existing artifact followed by exactly one skip line per new
artifact, and the batch returns false without raising. -/
theorem claim_C6 (env : Env) (recipe_dir owner channel : Str) (variant : List Str)
    (htok : pyTruthy (filterToken env.binstar_token) = false) :
    (∀ tf p o c,
      Event.uploadCall tf p o c ∉ (upload_or_check env recipe_dir owner channel variant).1)
    ∧ ∀ ex news,
      existing_distributions env (env.get_server_api (filterToken env.binstar_token)) owner
        = .ok ex →
      new_distributions env (env.get_server_api (filterToken env.binstar_token)) owner
        = .ok news →
      upload_or_check env recipe_dir owner channel variant
        = (ex.map (fun d => printExisting d owner)
            ++ news.map (fun p => printSkip p owner), .ok false) := by
  constructor
  · intro tf p o c
    simp only [upload_or_check]
    split
    · simp
    · split
      · simp [printExisting, List.mem_map]
      · rw [if_neg (by simp [htok])]
        simp [printExisting, printSkip, List.mem_append, List.mem_map]
  · intro ex news hex hnew
    simp only [upload_or_check, hex, hnew]
    rw [if_neg (by simp [htok])]

/-- C6 witness: no token and one new artifact gives exactly one skip line
and the result false. -/
theorem claim_C6_witness :
    pyTruthy (filterToken envNoTok.binstar_token) = false
    ∧ upload_or_check envNoTok (ls "r") (ls "own") (ls "main") []
      = ([printSkip (ls "noarch/a-1-0.tar.bz2") (ls "own")], .ok false) := by
  refine ⟨by decide, ?_⟩
  have h := (claim_C6 envNoTok (ls "r") (ls "own") (ls "main") [] (by decide)).2
    [] [ls "noarch/a-1-0.tar.bz2"] (by decide) (by decide)
  simpa using h

lemma bdae_allNotFound {cli : Cli}
    (h : ∀ o n v d, cli.distribution o n v d = .error .notFound)
    (n v f o : Str) :
    built_distribution_already_exists cli n v f o = .ok false := by
  simp [built_distribution_already_exists, h]

lemma filterE_all_false {α : Type} (p : α → Except Exc Bool) (l : List α)
    (h : ∀ x ∈ l, p x = .ok false) : filterE p l = .ok [] := by
  induction l with
  | nil => rfl
  | cons x xs ih =>
    simp only [filterE, h x (by simp)]
    rw [ih (fun y hy => h y (by simp [hy]))]
    rfl

lemma filterE_all_true {α : Type} (p : α → Except Exc Bool) (l : List α)
    (h : ∀ x ∈ l, p x = .ok true) : filterE p l = .ok l := by
  induction l with
  | nil => rfl
  | cons x xs ih =>
    simp only [filterE, h x (by simp)]
    rw [ih (fun y hy => h y (by simp [hy]))]
    rfl

/-- C8: when every distribution lookup answers NotFound, the existing list
is empty and the new list holds every parsed artifact, so each artifact
lands in exactly one of the two partitions. -/
theorem claim_C8 (env : Env) (owner : Str) (bd : List (Str × Str × Str))
    (hapi : ∀ o n v d,
      (env.get_server_api (filterToken env.binstar_token)).distribution o n v d
        = .error .notFound)
    (hbd : built_distributions env = .ok bd) :
    existing_distributions env (env.get_server_api (filterToken env.binstar_token)) owner
      = .ok []
    ∧ new_distributions env (env.get_server_api (filterToken env.binstar_token)) owner
      = .ok (bd.map (fun t => t.2.2)) := by
  constructor
  · simp only [existing_distributions, hbd]
    rw [filterE_all_false _ bd (fun x _ => bdae_allNotFound hapi _ _ _ _)]
    rfl
  · simp only [new_distributions, hbd]
    rw [filterE_all_true (newPred (env.get_server_api (filterToken env.binstar_token)) owner)
      bd (fun x _ => by simp [newPred, bdae_allNotFound hapi])]

/-- C8 witness: one artifact, all lookups NotFound: existing empty, new
holds the artifact. -/
theorem claim_C8_witness :
    existing_distributions envNoTok
        (envNoTok.get_server_api (filterToken envNoTok.binstar_token)) (ls "own") = .ok []
    ∧ new_distributions envNoTok
        (envNoTok.get_server_api (filterToken envNoTok.binstar_token)) (ls "own")
      = .ok [ls "noarch/a-1-0.tar.bz2"] := by
  have h := claim_C8 envNoTok (ls "own")
    [(ls "a", ls "1", ls "noarch/a-1-0.tar.bz2")] (fun _ _ _ _ => rfl) (by decide)
  simpa using h

lemma attemptStarts_cons_start (i : Nat) (tr : List Event) :
    attemptStarts (Event.attemptStart i :: tr) = i :: attemptStarts tr := by
  simp [attemptStarts]

lemma attemptStarts_cons_inner {ev : Event} (tr : List Event)
    (h : innerEvent ev = true) :
    attemptStarts (ev :: tr) = attemptStarts tr := by
  cases ev <;> simp_all [attemptStarts, innerEvent]

lemma attemptStarts_cons_sleep (n : Nat) (tr : List Event) :
    attemptStarts (Event.sleep n :: tr) = attemptStarts tr := by
  simp [attemptStarts]

lemma attemptStarts_append (a b : List Event) :
    attemptStarts (a ++ b) = attemptStarts a ++ attemptStarts b := by
  simp [attemptStarts]

lemma attemptStarts_inner_nil {tr : List Event}
    (h : ∀ ev ∈ tr, innerEvent ev = true) : attemptStarts tr = [] := by
  induction tr with
  | nil => rfl
  | cons ev tr ih =>
    rw [attemptStarts_cons_inner tr (h ev (by simp))]
    exact ih (fun e he => h e (by simp [he]))

lemma sleeps_cons_sleep (n : Nat) (tr : List Event) :
    sleeps (Event.sleep n :: tr) = n :: sleeps tr := by
  simp [sleeps]

lemma sleeps_cons_start (i : Nat) (tr : List Event) :
    sleeps (Event.attemptStart i :: tr) = sleeps tr := by
  simp [sleeps]

lemma sleeps_cons_inner {ev : Event} (tr : List Event) (h : innerEvent ev = true) :
    sleeps (ev :: tr) = sleeps tr := by
  cases ev <;> simp_all [sleeps, innerEvent]

lemma sleeps_append (a b : List Event) :
    sleeps (a ++ b) = sleeps a ++ sleeps b := by
  simp [sleeps]

lemma sleeps_inner_nil {tr : List Event}
    (h : ∀ ev ∈ tr, innerEvent ev = true) : sleeps tr = [] := by
  induction tr with
  | nil => rfl
  | cons ev tr ih =>
    rw [sleeps_cons_inner tr (h ev (by simp))]
    exact ih (fun e he => h e (by simp [he]))

lemma uploadLoop_inner (env : Env) (tf ow ch : Str) (l : List Str) :
    ∀ ev ∈ (uploadLoop env tf ow ch l).1, innerEvent ev = true := by
  induction l with
  | nil => intro ev hev; simp [uploadLoop] at hev
  | cons p ps ih =>
    intro ev hev
    simp only [uploadLoop] at hev
    cases hr : env.upload_result tf p ow ch with
    | error e =>
      rw [hr] at hev
      simp at hev
      simp [hev, innerEvent]
    | ok u =>
      rw [hr] at hev
      simp at hev
      rcases hev with h1 | h1 | h1
      · simp [h1, innerEvent]
      · simp [h1, printUploaded, innerEvent]
      · exact ih ev h1

lemma uploadLoop_no_removed (env : Env) (tf ow ch : Str) (l : List Str) :
    Event.tempDirRemoved ∉ (uploadLoop env tf ow ch l).1 := by
  induction l with
  | nil => simp [uploadLoop]
  | cons p ps ih =>
    simp only [uploadLoop]
    split
    · simp
    · simp [printUploaded, ih]

lemma upload_or_check_inner (env : Env) (recipe_dir owner channel : Str)
    (variant : List Str) :
    ∀ ev ∈ (upload_or_check env recipe_dir owner channel variant).1,
      innerEvent ev = true := by
  intro ev hev
  simp only [upload_or_check] at hev
  split at hev
  · simp at hev
  · split at hev
    · obtain ⟨d, _, hd⟩ := List.mem_map.1 hev
      subst hd
      rfl
    · split at hev
      · split at hev
        · rcases List.mem_append.1 hev with h | h
          · rcases List.mem_append.1 h with h2 | h2
            · obtain ⟨d, _, hd⟩ := List.mem_map.1 h2
              subst hd
              rfl
            · rcases List.mem_cons.1 h2 with h3 | h3
              · subst h3
                rfl
              · exact uploadLoop_inner env _ _ _ _ ev h3
          · rw [List.mem_singleton.1 h]
            rfl
        · rcases List.mem_append.1 hev with h | h
          · obtain ⟨d, _, hd⟩ := List.mem_map.1 h
            subst hd
            rfl
          · rcases List.mem_cons.1 h with h3 | h3
            · subst h3
              rfl
            · exact uploadLoop_inner env _ _ _ _ ev h3
      · rcases List.mem_append.1 hev with h | h
        · obtain ⟨d, _, hd⟩ := List.mem_map.1 h
          subst hd
          rfl
        · obtain ⟨p, _, hp⟩ := List.mem_map.1 h
          subst hp
          rfl

lemma upload_or_check_built_error (env : Env) (recipe_dir owner channel : Str)
    (variant : List Str) (e : Exc) (h : built_distributions env = .error e) :
    upload_or_check env recipe_dir owner channel variant = ([], .error e) := by
  simp only [upload_or_check, existing_distributions, h]

lemma attemptStarts_cons_print (m : Str) (tr : List Event) :
    attemptStarts (Event.print m :: tr) = attemptStarts tr := by
  simp [attemptStarts]

lemma sleeps_cons_print (m : Str) (tr : List Event) :
    sleeps (Event.print m :: tr) = sleeps tr := by
  simp [sleeps]

lemma retryAux_allFail (op : Nat → List Event × Except Exc Bool) (l : List Nat)
    (hfail : ∀ i ∈ l, ∃ e, (op i).2 = .error e)
    (hinner : ∀ i, ∀ ev ∈ (op i).1, innerEvent ev = true) :
    (retryAux op l).2 = .error .timeoutError
    ∧ attemptStarts (retryAux op l).1 = l
    ∧ sleeps (retryAux op l).1 = l.map (fun i => i ^ 2) := by
  induction l with
  | nil => exact ⟨rfl, rfl, rfl⟩
  | cons i is ih =>
    obtain ⟨e, he⟩ := hfail i (by simp)
    have ih2 := ih (fun j hj => hfail j (by simp [hj]))
    refine ⟨?_, ?_, ?_⟩
    · simp only [retryAux, he]
      exact ih2.1
    · simp only [retryAux, he, List.cons_append]
      rw [attemptStarts_cons_start, attemptStarts_append,
        attemptStarts_inner_nil (hinner i), attemptStarts_cons_print,
        attemptStarts_cons_sleep, ih2.2.1]
      rfl
    · simp only [retryAux, he, List.cons_append]
      rw [sleeps_cons_start, sleeps_append, sleeps_inner_nil (hinner i),
        sleeps_cons_print, sleeps_cons_sleep, ih2.2.2]
      rfl

lemma retryAux_firstSuccess (op : Nat → List Event × Except Exc Bool)
    (l1 : List Nat) (k : Nat) (l2 : List Nat) (b : Bool)
    (hfail : ∀ i ∈ l1, ∃ e, (op i).2 = .error e)
    (hinner : ∀ i, ∀ ev ∈ (op i).1, innerEvent ev = true)
    (hk : (op k).2 = .ok b) :
    (retryAux op (l1 ++ k :: l2)).2 = .ok b
    ∧ attemptStarts (retryAux op (l1 ++ k :: l2)).1 = l1 ++ [k] := by
  induction l1 with
  | nil =>
    constructor
    · simp only [List.nil_append, retryAux, hk]
    · simp only [List.nil_append, retryAux, hk, List.cons_append]
      rw [attemptStarts_cons_start, attemptStarts_inner_nil (hinner k)]
  | cons i is ih =>
    obtain ⟨e, he⟩ := hfail i (by simp)
    have ih2 := ih (fun j hj => hfail j (by simp [hj]))
    constructor
    · simp only [List.cons_append, retryAux, he, List.append_eq]
      exact ih2.1
    · simp only [List.cons_append, retryAux, he, List.append_eq]
      rw [attemptStarts_cons_start, attemptStarts_append,
        attemptStarts_inner_nil (hinner i), attemptStarts_cons_print,
        attemptStarts_cons_sleep, ih2.2]
      rfl

/-- C1 (amended): with a usable token, the temporary credential directory
is removed whenever the batch returns normally; but when the batch raises
(in particular when an upload fails), the directory is never removed,
because get_temp_token has no try/finally around its yield. -/
theorem claim_C1 (env : Env) (recipe_dir owner channel : Str) (variant : List Str)
    (htok : pyTruthy (filterToken env.binstar_token) = true) :
    (∀ b, (upload_or_check env recipe_dir owner channel variant).2 = .ok b →
      Event.tempDirRemoved ∈ (upload_or_check env recipe_dir owner channel variant).1)
    ∧ (∀ e, (upload_or_check env recipe_dir owner channel variant).2 = .error e →
      Event.tempDirRemoved ∉ (upload_or_check env recipe_dir owner channel variant).1) := by
  cases h1 : existing_distributions env
      (env.get_server_api (filterToken env.binstar_token)) owner with
  | error e1 =>
    have hu : upload_or_check env recipe_dir owner channel variant = ([], .error e1) := by
      simp only [upload_or_check, h1]
    rw [hu]
    constructor
    · intro b hb
      simp at hb
    · intro e he
      simp
  | ok existing =>
    cases h2 : new_distributions env
        (env.get_server_api (filterToken env.binstar_token)) owner with
    | error e2 =>
      have hu : upload_or_check env recipe_dir owner channel variant
          = (existing.map (fun d => printExisting d owner), .error e2) := by
        simp only [upload_or_check, h1, h2]
      rw [hu]
      constructor
      · intro b hb
        simp at hb
      · intro e he hmem
        obtain ⟨d, _, hd⟩ := List.mem_map.1 hmem
        simp [printExisting] at hd
    | ok news =>
      cases h3 : (uploadLoop env (pathJoin env.temp_dir (ls "binstar.token"))
          owner channel news).2 with
      | ok u =>
        have hu : upload_or_check env recipe_dir owner channel variant
            = (existing.map (fun d => printExisting d owner) ++ Event.tempDirCreated
                :: (uploadLoop env (pathJoin env.temp_dir (ls "binstar.token"))
                  owner channel news).1 ++ [Event.tempDirRemoved], .ok true) := by
          simp only [upload_or_check, h1, h2, htok, if_true, h3]
        rw [hu]
        constructor
        · intro b hb
          simp
        · intro e he
          simp at he
      | error e3 =>
        have hu : upload_or_check env recipe_dir owner channel variant
            = (existing.map (fun d => printExisting d owner) ++ Event.tempDirCreated
                :: (uploadLoop env (pathJoin env.temp_dir (ls "binstar.token"))
                  owner channel news).1, .error e3) := by
          simp only [upload_or_check, h1, h2, htok, if_true, h3]
        rw [hu]
        constructor
        · intro b hb
          simp at hb
        · intro e he hmem
          rcases List.mem_append.1 hmem with h | h
          · obtain ⟨d, _, hd⟩ := List.mem_map.1 h
            simp [printExisting] at hd
          · rcases List.mem_cons.1 h with h4 | h4
            · simp at h4
            · exact uploadLoop_no_removed env _ _ _ _ h4

/-- C1 counterexample to the claim as stated: a run with a token whose one
upload raises leaves the temp directory in place: created but never
removed, while the exception propagates. -/
theorem claim_C1_cex :
    pyTruthy (filterToken envUpFail.binstar_token) = true
    ∧ Event.tempDirCreated ∈ (upload_or_check envUpFail (ls "r") (ls "own") (ls "main") []).1
    ∧ (upload_or_check envUpFail (ls "r") (ls "own") (ls "main") []).2
        = .error (.calledProcessError 1)
    ∧ Event.tempDirRemoved ∉ (upload_or_check envUpFail (ls "r") (ls "own") (ls "main") []).1 := by
  decide

/-- C1 witness: a run with a token whose uploads all succeed does remove
the temp directory. -/
theorem claim_C1_witness :
    pyTruthy (filterToken envUpOk.binstar_token) = true
    ∧ (upload_or_check envUpOk (ls "r") (ls "own") (ls "main") []).2 = .ok true
    ∧ Event.tempDirRemoved ∈ (upload_or_check envUpOk (ls "r") (ls "own") (ls "main") []).1 :=
  ⟨by decide, by decide,
   (claim_C1 envUpOk (ls "r") (ls "own") (ls "main") [] (by decide)).1 true (by decide)⟩

/-- C2: the retry wrapper invokes the batch for attempt indices 1..9 only;
when every attempt raises it performs all 9 attempts, sleeps the square of
each attempt index after each failure (so 1, 4, 9, ... seconds between
successive failures) and then raises TimeoutError; when attempt k is the
first to return, its result is returned and attempts stop at k. -/
theorem claim_C2 (envs : Nat → Env) (recipe_dir owner channel : Str)
    (variant : List Str) :
    ((∀ i, 1 ≤ i → i ≤ 9 →
        ∃ e, (upload_or_check (envs i) recipe_dir owner channel variant).2 = .error e) →
      (retry_upload_or_check envs recipe_dir owner channel variant).2
          = .error .timeoutError
      ∧ attemptStarts (retry_upload_or_check envs recipe_dir owner channel variant).1
          = List.range' 1 9
      ∧ sleeps (retry_upload_or_check envs recipe_dir owner channel variant).1
          = (List.range' 1 9).map (fun i => i ^ 2))
    ∧ (∀ k b, 1 ≤ k → k ≤ 9 →
      (∀ i, 1 ≤ i → i < k →
        ∃ e, (upload_or_check (envs i) recipe_dir owner channel variant).2 = .error e) →
      (upload_or_check (envs k) recipe_dir owner channel variant).2 = .ok b →
      (retry_upload_or_check envs recipe_dir owner channel variant).2 = .ok b
      ∧ attemptStarts (retry_upload_or_check envs recipe_dir owner channel variant).1
          = List.range' 1 k) := by
  constructor
  · intro h
    have hfail : ∀ i ∈ List.range' 1 9,
        ∃ e, (upload_or_check (envs i) recipe_dir owner channel variant).2 = .error e := by
      intro i hi
      rw [List.mem_range'_1] at hi
      exact h i hi.1 (by omega)
    exact retryAux_allFail
      (fun i => upload_or_check (envs i) recipe_dir owner channel variant)
      (List.range' 1 9) hfail
      (fun i => upload_or_check_inner (envs i) recipe_dir owner channel variant)
  · intro k b hk1 hk9 hfail hsucc
    have e2 : 1 + 1 * (k - 1) = k := by omega
    have hsplit : List.range' 1 9
        = List.range' 1 (k - 1) ++ k :: List.range' (k + 1) (9 - k) := by
      have h1 := List.range'_append 1 (k - 1) (10 - k) 1
      rw [e2] at h1
      rw [show (10 - k) + (k - 1) = 9 from by omega] at h1
      have h3 := List.range'_succ k (9 - k) 1
      rw [show (9 - k) + 1 = 10 - k from by omega] at h3
      rw [← h1, h3]
    have hf : ∀ i ∈ List.range' 1 (k - 1),
        ∃ e, (upload_or_check (envs i) recipe_dir owner channel variant).2 = .error e := by
      intro i hi
      rw [List.mem_range'_1] at hi
      exact hfail i hi.1 (by omega)
    have hres := retryAux_firstSuccess
      (fun i => upload_or_check (envs i) recipe_dir owner channel variant)
      (List.range' 1 (k - 1)) k (List.range' (k + 1) (9 - k)) b hf
      (fun i => upload_or_check_inner (envs i) recipe_dir owner channel variant) hsucc
    have hconcat : List.range' 1 (k - 1) ++ [k] = List.range' 1 k := by
      have h5 : List.range' 1 ((k - 1) + 1) = List.range' 1 (k - 1) ++ [1 + 1 * (k - 1)] :=
        List.range'_concat 1 (k - 1)
      rw [e2] at h5
      rw [show (k - 1) + 1 = k from by omega] at h5
      exact h5.symm
    constructor
    · unfold retry_upload_or_check
      rw [hsplit]
      exact hres.1
    · unfold retry_upload_or_check
      rw [hsplit]
      rw [hres.2, hconcat]

/-- C2 witness: with a world whose batch always raises (a malformed
artifact), the wrapper times out and the sleeps are 1, 4, ..., 81. -/
theorem claim_C2_witness :
    (retry_upload_or_check (fun _ => envBad) (ls "r") (ls "o2") (ls "main") []).2
      = .error .timeoutError
    ∧ sleeps (retry_upload_or_check (fun _ => envBad) (ls "r") (ls "o2") (ls "main") []).1
      = (List.range' 1 9).map (fun i => i ^ 2) := by
  have h := (claim_C2 (fun _ => envBad) (ls "r") (ls "o2") (ls "main") []).1
    (fun i h1 h2 => ⟨.valueError, by decide⟩)
  exact ⟨h.1, h.2.2⟩

/-- C3 (amended): a malformed artifact filename raises a parse error
inside the batch attempt, but the retry wrapper catches every exception,
so the run is retried for all 9 attempts and then aborts with
TimeoutError rather than aborting immediately on the parse error. -/
theorem claim_C3 (envs : Nat → Env) (recipe_dir owner channel : Str)
    (variant : List Str)
    (h : ∀ i, 1 ≤ i → i ≤ 9 → ∃ e, built_distributions (envs i) = .error e) :
    (retry_upload_or_check envs recipe_dir owner channel variant).2
        = .error .timeoutError
    ∧ attemptStarts (retry_upload_or_check envs recipe_dir owner channel variant).1
        = List.range' 1 9 := by
  have hfail : ∀ i ∈ List.range' 1 9,
      ∃ e, (upload_or_check (envs i) recipe_dir owner channel variant).2 = .error e := by
    intro i hi
    rw [List.mem_range'_1] at hi
    obtain ⟨e, he⟩ := h i hi.1 (by omega)
    exact ⟨e, by rw [upload_or_check_built_error (envs i) recipe_dir owner channel variant e he]⟩
  have hres := retryAux_allFail
    (fun i => upload_or_check (envs i) recipe_dir owner channel variant)
    (List.range' 1 9) hfail
    (fun i => upload_or_check_inner (envs i) recipe_dir owner channel variant)
  exact ⟨hres.1, hres.2.1⟩

/-- C3 counterexample to the claim as stated: the parse error raised for
the malformed name pkg.tar.bz2 does not abort the run on the first
attempt: the retry wrapper catches it, runs all 9 attempts, and the run
ends with TimeoutError, not with the parse error. -/
theorem claim_C3_cex :
    (upload_or_check envBad (ls "r") (ls "own") (ls "main") []).2 = .error .valueError
    ∧ (retry_upload_or_check (fun _ => envBad) (ls "r") (ls "own") (ls "main") []).2
        = .error .timeoutError
    ∧ attemptStarts
        (retry_upload_or_check (fun _ => envBad) (ls "r") (ls "own") (ls "main") []).1
      = List.range' 1 9 := by
  decide

/-- C3 witness: the amended claim at a concrete malformed-artifact world. -/
theorem claim_C3_witness :
    (retry_upload_or_check (fun _ => envBad) (ls "r3") (ls "own") (ls "main") []).2
      = .error .timeoutError :=
  (claim_C3 (fun _ => envBad) (ls "r3") (ls "own") (ls "main") []
    (fun i h1 h2 =>
      ⟨.valueError, show built_distributions envBad = .error .valueError by decide⟩)).1
